import Mathlib

/-!
# Client commands `export` and `import` (api/client/export.go, api/client/import.go)

A shallow embedding of the two command handlers `CmdExport` and `CmdImport`.

* Go strings are Lean strings; the Go `error` result is `Option Error` (`none` is `nil`).
* The command line is taken after `cmd.ParseFlags`: the flag values and the positional
  arguments. `cmd.Arg i` is the i-th positional, or `""` when there is none. The
  argument counts asked for by `cmd.Require` are enforced inside `ParseFlags`, ahead of
  the code embedded here; the theorems hold for every list of positionals.
* Everything a handler calls outside its own file is a field of `Env`
  (`os.Create`, `os.Open`, `urlutil.IsURL`, `parsers.ParseRepositoryTag`,
  `registry.ValidateRepositoryName`, `cli.stream`, `cli.isTerminalOut`).
* Each handler returns its result together with the list of the external calls it made,
  in program order.
-/

namespace Client

/-- An `io.Reader` as held by the `in` field of `streamOpts`. -/
inductive Reader where
  /-- The nil reader: no request body. -/
  | nil
  /-- The reader `cli.in`, the primary input of the process. -/
  | cliIn
  /-- The file returned by `os.Open name`. -/
  | file (name : String)
  deriving DecidableEq, Repr

/-- An `io.Writer` as held by the `out` field of `streamOpts`. -/
inductive Writer where
  /-- The writer `cli.out`, the primary output of the process. -/
  | cliOut
  /-- The file returned by `os.Create name`. -/
  | file (name : String)
  deriving DecidableEq, Repr

/-- The struct `streamOpts`, restricted to the fields the two handlers set
(`in` is a reserved word, hence `input`). -/
structure StreamOpts where
  rawTerminal : Bool
  input : Reader
  out : Writer
  deriving DecidableEq, Repr

/-- A Go `error` value. An error made by `errors.New` inside the handlers is a fresh
value, never identical to one handed back by a callee, hence the two constructors. -/
inductive Error where
  /-- The value `errors.New text` built in export.go or import.go. -/
  | errorsNew (text : String)
  /-- An error returned by a callee (os, registry, transport), passed on as it is. -/
  | external (e : String)
  deriving DecidableEq, Repr

/-- The external calls a handler makes, in program order. -/
inductive Event where
  /-- A call `os.Create name`. -/
  | create (name : String)
  /-- A call `os.Open name`. -/
  | openFile (name : String)
  /-- The deferred `file.Close()` of the file opened at `name`. -/
  | close (name : String)
  /-- A call `registry.ValidateRepositoryName repo`. -/
  | validate (repo : String)
  /-- A line written to `cli.err`. -/
  | warn (text : String)
  /-- A call `cli.stream method path sopts`. -/
  | stream (method path : String) (sopts : StreamOpts)
  deriving DecidableEq, Repr

/-- What the handlers use from the rest of the program and from the system. A callee
that returns an `error` is a function to `Option String`: `none` is `nil`. -/
structure Env where
  /-- The field `cli.isTerminalOut`. -/
  isTerminalOut : Bool
  /-- The error of `os.Create name`; on `none` the file exists and is the result. -/
  osCreate : String → Option String
  /-- The error of `os.Open name`; on `none` the file is the result. -/
  osOpen : String → Option String
  /-- The predicate `urlutil.IsURL`. -/
  IsURL : String → Bool
  /-- The function `parsers.ParseRepositoryTag`. -/
  ParseRepositoryTag : String → String × String
  /-- The function `registry.ValidateRepositoryName`. -/
  ValidateRepositoryName : String → Option String
  /-- The error of `cli.stream method path sopts`. -/
  stream : String → String → StreamOpts → Option String

/-- Method `Arg` of the flag set: the i-th positional argument, `""` out of range. -/
def Arg (args : List String) (i : Nat) : String :=
  args.getD i ""

/-- Method `NArg` of the flag set: the number of positional arguments. -/
def NArg (args : List String) : Nat :=
  args.length

/-! ## net/url: query escaping and `url.Values` -/

/-- The bytes of the UTF-8 encoding of a character: a Go string is a byte sequence and
`QueryEscape` works on its bytes. -/
def utf8Bytes (c : Char) : List Nat :=
  let n := c.toNat
  if n < 0x80 then [n]
  else if n < 0x800 then [0xC0 + n / 64, 0x80 + n % 64]
  else if n < 0x10000 then [0xE0 + n / 4096, 0x80 + n / 64 % 64, 0x80 + n % 64]
  else [0xF0 + n / 262144, 0x80 + n / 4096 % 64, 0x80 + n / 64 % 64, 0x80 + n % 64]

/-- Function `shouldEscape` of net/url in mode `encodeQueryComponent`: letters, digits and
`-`, `_`, `.`, `~` are kept, every other byte is escaped. -/
def shouldEscape (c : Nat) : Bool :=
  if (65 ≤ c && c ≤ 90) || (97 ≤ c && c ≤ 122) || (48 ≤ c && c ≤ 57) then false
  else if c = 45 || c = 95 || c = 46 || c = 126 then false
  else true

/-- The digit at index `n` of `"0123456789ABCDEF"`. -/
def hexDigit (n : Nat) : Char :=
  if n < 10 then Char.ofNat (48 + n) else Char.ofNat (55 + n)

/-- One byte as `QueryEscape` writes it: a space is `+`, an escaped byte is `%XX`. -/
def escapeByte (b : Nat) : List Char :=
  if b = 32 then ['+']
  else if shouldEscape b then ['%', hexDigit (b / 16), hexDigit (b % 16)]
  else [Char.ofNat b]

/-- Function `url.QueryEscape`. -/
def QueryEscape (s : String) : String :=
  String.mk (s.data.flatMap (fun c => (utf8Bytes c).flatMap escapeByte))

/-- Type `url.Values`, a map from a key to its list of values, as the list of its
entries (each key at most once). -/
abbrev Values := List (String × List String)

/-- Method `Values.Set`: the key gets the single value `value`. -/
def Values.Set : Values → String → String → Values
  | [], key, value => [(key, [value])]
  | (k, vs) :: rest, key, value =>
    if k = key then (k, [value]) :: rest else (k, vs) :: Values.Set rest key value

/-- Method `Values.Add`: `value` is appended to the values of the key. -/
def Values.Add : Values → String → String → Values
  | [], key, value => [(key, [value])]
  | (k, vs) :: rest, key, value =>
    if k = key then (k, vs ++ [value]) :: rest else (k, vs) :: Values.Add rest key value

/-- The map lookup `v[key]`: the values of the key, none when the key is absent. -/
def Values.lookup : Values → String → List String
  | [], _ => []
  | (k, vs) :: rest, key => if k = key then vs else Values.lookup rest key

/-- The order `<` of Go strings, lexicographic on the bytes, which on UTF-8 text is the
lexicographic order on the characters. -/
def stringLess : List Char → List Char → Bool
  | _, [] => false
  | [], _ :: _ => true
  | a :: s, b :: t =>
    if a.toNat < b.toNat then true else if b.toNat < a.toNat then false else stringLess s t

/-- Insertion of a key into a list of keys in increasing order. -/
def insertKey (k : String) : List String → List String
  | [] => [k]
  | x :: xs => if stringLess k.data x.data then k :: x :: xs else x :: insertKey k xs

/-- Function `sort.Strings`, on the keys of a map (no key twice). -/
def sortStrings (keys : List String) : List String :=
  keys.foldr insertKey []

/-- The inner loop of `Values.Encode` for one key: every value is written to the buffer
as `key=value`, both escaped, after a `&` when the buffer is not empty. -/
def encodeKey (v : Values) (buf : String) (k : String) : String :=
  let pre := QueryEscape k ++ "="
  (v.lookup k).foldl
    (fun buf x => (if buf.length > 0 then buf ++ "&" else buf) ++ pre ++ QueryEscape x) buf

/-- Method `Values.Encode`: the entries in the order of the sorted keys. -/
def Values.Encode (v : Values) : String :=
  (sortStrings (v.map Prod.fst)).foldl (encodeKey v) ""

/-! ## export.go -/

/-- The command line of `docker export` after `cmd.ParseFlags`. -/
structure ExportCmd where
  /-- Flag `-o`, `--output` (default `""`). -/
  outfile : String
  /-- Flag `--diff` (default false). -/
  diff : Bool
  /-- Flag `--metadata` (default false). -/
  metadata : Bool
  /-- The positional arguments. -/
  args : List String

/-- The text of the mutual-exclusion error of `CmdExport`. -/
def exportExclusiveMsg : String :=
  "diff and metadata are mutually exclusive options. Use either one of them, not both"

/-- The text of the terminal-guard error of `CmdExport`. -/
def exportTerminalMsg : String :=
  "Cowardly refusing to save to a terminal. Use the -o flag or redirect."

/-- A call `cli.stream method path sopts` whose error, if any, is what the handler
returns: `before` are the calls made so far, `deferred` the deferred calls, which run
when the handler returns. -/
def doStream (env : Env) (method path : String) (sopts : StreamOpts)
    (before deferred : List Event) : Option Error × List Event :=
  ((env.stream method path sopts).map Error.external,
    before ++ [Event.stream method path sopts] ++ deferred)

/-- The end of `CmdExport`, from the construction of `sopts` on: the stream call of the
mode, to the resolved sink `output`. -/
def exportStream (env : Env) (cmd : ExportCmd) (image : String) (output : Writer)
    (before : List Event) : Option Error × List Event :=
  let sopts : StreamOpts := { rawTerminal := true, input := Reader.nil, out := output }
  if cmd.metadata then
    doStream env "GET" ("/containers/" ++ image ++ "/metadata") sopts before []
  else if cmd.diff then
    doStream env "GET" ("/containers/" ++ image ++ "/diff") sopts before []
  else
    doStream env "GET" ("/containers/" ++ image ++ "/export") sopts before []

/-- The handler `CmdExport` (export.go), after flag parsing. -/
def CmdExport (env : Env) (cmd : ExportCmd) : Option Error × List Event :=
  let image := Arg cmd.args 0
  if cmd.diff && cmd.metadata then
    (some (Error.errorsNew exportExclusiveMsg), [])
  else if cmd.outfile ≠ "" then
    match env.osCreate cmd.outfile with
    | some err => (some (Error.external err), [Event.create cmd.outfile])
    | none => exportStream env cmd image (Writer.file cmd.outfile) [Event.create cmd.outfile]
  else if env.isTerminalOut then
    (some (Error.errorsNew exportTerminalMsg), [])
  else
    exportStream env cmd image Writer.cliOut []

/-! ## import.go -/

/-- The command line of `docker import` after `cmd.ParseFlags`. -/
structure ImportCmd where
  /-- The values of flag `-c`, `--change`, in the order given (`flChanges.GetAll()`). -/
  flChanges : List String
  /-- Flag `-m`, `--message` (default `""`). -/
  message : String
  /-- Flag `--diff` (default `""`). -/
  flDiff : String
  /-- Flag `--metadata` (default false). -/
  flMetadata : Bool
  /-- The positional arguments. -/
  args : List String

/-- The text of the mode error of `CmdImport`. -/
def importSequentialMsg : String :=
  "diff and metadata are sequential import options. Use diff after container's metadata is loaded"

/-- The deprecation warning of `CmdImport` for three positional arguments. -/
def importDeprecatedMsg : String :=
  "[DEPRECATED] The format 'file|URL|- [REPOSITORY [TAG]]' has been deprecated. Please use file|URL|- [REPOSITORY[:TAG]]\n"

/-- The query parameters `v` as `CmdImport` builds them from the command line, up to
the repository name check. -/
def importValues (cmd : ImportCmd) : Values :=
  let v : Values := []
  let v := if cmd.flDiff ≠ "" then v.Set "container" cmd.flDiff else v
  let v := v.Set "fromSrc" (Arg cmd.args 0)
  let v := v.Set "repo" (Arg cmd.args 1)
  let v := v.Set "message" cmd.message
  let v := cmd.flChanges.foldl (fun v change => v.Add "changes" change) v
  if NArg cmd.args = 3 then v.Set "tag" (Arg cmd.args 2) else v

/-- What `CmdImport` writes to `cli.err` while it builds the parameters: the deprecation
warning, in the same branch that sets `tag`. -/
def importWarning (cmd : ImportCmd) : List Event :=
  if NArg cmd.args = 3 then [Event.warn importDeprecatedMsg] else []

/-- The end of `CmdImport`, from the construction of `sopts` on: the stream call of the
mode, with request body `input`. -/
def importStream (env : Env) (cmd : ImportCmd) (v : Values) (input : Reader)
    (before deferred : List Event) : Option Error × List Event :=
  let sopts : StreamOpts := { rawTerminal := true, input := input, out := Writer.cliOut }
  if cmd.flDiff ≠ "" then
    doStream env "POST" ("/containers/diff?" ++ v.Encode) sopts before deferred
  else if cmd.flMetadata then
    doStream env "POST" "/containers/metadata" sopts before deferred
  else
    doStream env "POST" ("/images/create?" ++ v.Encode) sopts before deferred

/-- The part of `CmdImport` after the repository name check: the source `src` is
resolved to the request body `in`, then the stream call is made. -/
def importTransfer (env : Env) (cmd : ImportCmd) (v : Values) (src : String)
    (before : List Event) : Option Error × List Event :=
  if src = "-" then
    importStream env cmd v Reader.cliIn before []
  else if !env.IsURL src then
    let v := v.Set "fromSrc" "-"
    match env.osOpen src with
    | some err => (some (Error.external err), before ++ [Event.openFile src])
    | none =>
      importStream env cmd v (Reader.file src) (before ++ [Event.openFile src])
        [Event.close src]
  else
    importStream env cmd v Reader.nil before []

/-- The handler `CmdImport` (import.go), after flag parsing. -/
def CmdImport (env : Env) (cmd : ImportCmd) : Option Error × List Event :=
  let src := Arg cmd.args 0
  let repository := Arg cmd.args 1
  if cmd.flMetadata && cmd.flDiff ≠ "" then
    (some (Error.errorsNew importSequentialMsg), [])
  else
    let v := importValues cmd
    let evs := importWarning cmd
    if repository ≠ "" then
      let repo := (env.ParseRepositoryTag repository).1
      match env.ValidateRepositoryName repo with
      | some err => (some (Error.external err), evs ++ [Event.validate repo])
      | none => importTransfer env cmd v src (evs ++ [Event.validate repo])
    else
      importTransfer env cmd v src evs

/-! ## Concrete environments -/

/-- A splitter like `parsers.ParseRepositoryTag` on names without `@` and `/`: the
part before the last `:` and the part after it. -/
def splitLastColon (s : String) : String × String :=
  let r := s.data.reverse
  if r.contains ':' then
    (String.mk (r.dropWhile (· ≠ ':')).tail.reverse, String.mk (r.takeWhile (· ≠ ':')).reverse)
  else (s, "")

/-- An environment in which every callee succeeds; nothing is a URL and the default
sink is not a terminal. -/
def envOk : Env where
  isTerminalOut := false
  osCreate := fun _ => none
  osOpen := fun _ => none
  IsURL := fun _ => false
  ParseRepositoryTag := splitLastColon
  ValidateRepositoryName := fun _ => none
  stream := fun _ _ _ => none

/-- An environment like `envOk` whose validator rejects every name. -/
def envRejecting : Env :=
  { envOk with ValidateRepositoryName := fun _ => some "Invalid repository name" }

/-- An environment like `envOk` in which no file can be opened. -/
def envUnreadable : Env :=
  { envOk with osOpen := fun _ => some "open: permission denied" }

/-- The command line `import - myrepo:latest`. -/
def importStdinTagged : ImportCmd :=
  { flChanges := [], message := "", flDiff := "", flMetadata := false,
    args := ["-", "myrepo:latest"] }

/-- The command line `import - myrepo latest`, the form with three positionals. -/
def importStdinLegacy : ImportCmd :=
  { flChanges := [], message := "", flDiff := "", flMetadata := false,
    args := ["-", "myrepo", "latest"] }

/-- The command line `import --diff c1 -`. -/
def importDiffStdin : ImportCmd :=
  { flChanges := [], message := "", flDiff := "c1", flMetadata := false, args := ["-"] }

/-- The command line `import ./archive.tar myrepo`. -/
def importArchive : ImportCmd :=
  { flChanges := [], message := "", flDiff := "", flMetadata := false,
    args := ["./archive.tar", "myrepo"] }

/-! ## Definitions used in the statements -/

/-- Whether an event is a `cli.stream` call. -/
def Event.isStream : Event → Bool
  | Event.stream _ _ _ => true
  | _ => false

/-- Whether an event is an `os.Open` call. -/
def Event.isOpen : Event → Bool
  | Event.openFile _ => true
  | _ => false

/-- Whether an event is the closing of a file. -/
def Event.isClose : Event → Bool
  | Event.close _ => true
  | _ => false

/-- Whether an event is a file or transport call: `os.Open`, `cli.stream` or `Close`. -/
def Event.isTransfer (ev : Event) : Bool :=
  ev.isOpen || ev.isStream || ev.isClose

/-- Whether an event is a `registry.ValidateRepositoryName` call. -/
def Event.isValidate : Event → Bool
  | Event.validate _ => true
  | _ => false

/-- The endpoint of a request path: the part before the query. -/
def endpoint (path : String) : String :=
  String.mk (path.data.takeWhile (· ≠ '?'))

/-- An event as two forms of a command line are compared: a stream call is taken with
its method, endpoint and options, without its query; every other event is kept as it
is. -/
def Event.shape : Event → Event
  | Event.stream method path sopts => Event.stream method (endpoint path) sopts
  | ev => ev

/-- The events of the repository name check of `CmdImport`. -/
def checkEvents (env : Env) (cmd : ImportCmd) : List Event :=
  if Arg cmd.args 1 ≠ "" then [Event.validate (env.ParseRepositoryTag (Arg cmd.args 1)).1]
  else []

/-- The outcome of the repository name check of `CmdImport`: the error of the validator
on the repository part of the second positional, nil when that positional is empty. -/
def checkResult (env : Env) (cmd : ImportCmd) : Option String :=
  if Arg cmd.args 1 ≠ "" then
    env.ValidateRepositoryName (env.ParseRepositoryTag (Arg cmd.args 1)).1
  else none

/-- The items `key=value` of the given keys, in order, both sides escaped. -/
def Values.items (v : Values) (keys : List String) : List String :=
  keys.flatMap (fun k => (v.lookup k).map (fun x => QueryEscape k ++ "=" ++ QueryEscape x))

/-- The buffer loop of `Encode` on a list of items: each item is written after a `&`
when the buffer is not empty. -/
def joinAmp (buf : String) (items : List String) : String :=
  items.foldl (fun b p => (if b.length > 0 then b ++ "&" else b) ++ p) buf

/-- The parameters of `CmdImport` as a list of entries, with `fromSrc` as given. -/
def importParams (cmd : ImportCmd) (fromSrc : String) : Values :=
  (if cmd.flDiff ≠ "" then [("container", [cmd.flDiff])] else [])
    ++ [("fromSrc", [fromSrc]), ("repo", [Arg cmd.args 1]), ("message", [cmd.message])]
    ++ (if cmd.flChanges = [] then [] else [("changes", cmd.flChanges)])
    ++ (if NArg cmd.args = 3 then [("tag", [Arg cmd.args 2])] else [])

/-- The query string of the `import` requests, spelled out: the `changes` in the order
given, `container` when `--diff` is set, `fromSrc`, `message`, `repo`, and `tag` when
there are three positionals; every value escaped, the items joined with `&`. -/
def importQuery (cmd : ImportCmd) (fromSrc : String) : String :=
  "&".intercalate
    (cmd.flChanges.map (fun c => "changes=" ++ QueryEscape c)
      ++ (if cmd.flDiff ≠ "" then ["container=" ++ QueryEscape cmd.flDiff] else [])
      ++ ["fromSrc=" ++ QueryEscape fromSrc,
          "message=" ++ QueryEscape cmd.message,
          "repo=" ++ QueryEscape (Arg cmd.args 1)]
      ++ (if NArg cmd.args = 3 then ["tag=" ++ QueryEscape (Arg cmd.args 2)] else []))

/-- The path of the stream call of `CmdImport`: the endpoint of the mode, with the
query spelled out except in Metadata mode. -/
def importPath (env : Env) (cmd : ImportCmd) : String :=
  let fromSrc :=
    if Arg cmd.args 0 ≠ "-" ∧ env.IsURL (Arg cmd.args 0) = false then "-" else Arg cmd.args 0
  if cmd.flDiff ≠ "" then "/containers/diff?" ++ importQuery cmd fromSrc
  else if cmd.flMetadata = true then "/containers/metadata"
  else "/images/create?" ++ importQuery cmd fromSrc

/-- The request body of `CmdImport`: the primary input for `-`, none for a URL, the
file otherwise. -/
def importInput (env : Env) (cmd : ImportCmd) : Reader :=
  if Arg cmd.args 0 = "-" then Reader.cliIn
  else if env.IsURL (Arg cmd.args 0) = true then Reader.nil
  else Reader.file (Arg cmd.args 0)

/-! ## Theorems: export -/

/-- C1: with both `--diff` and `--metadata`, for every container argument, every `-o`
value and every environment (terminal or not), `CmdExport` returns the
mutual-exclusion error and has made no external call at all: no file was created and
no stream call was made. -/
theorem CmdExport_diff_and_metadata (env : Env) (outfile : String) (args : List String) :
    CmdExport env { outfile := outfile, diff := true, metadata := true, args := args }
      = (some (Error.errorsNew exportExclusiveMsg), []) := by
  simp [CmdExport]

/-- C2: for every container `T` and flags `(diff, metadata)` not both true, when the sink
is resolved (the `-o` file is created, or there is no `-o` and the default sink is not a
terminal) the calls made are the creation of the `-o` file, if any, followed by exactly
one stream call: `GET`, raw, no input, path `/containers/T` plus `/export`, `/diff` or
`/metadata`, output the created file or the default sink; the result is the error of
that call, and it is nil exactly when the call returns no error. -/
theorem CmdExport_stream (env : Env) (outfile T : String) (diff metadata : Bool)
    (hmode : ¬ (diff = true ∧ metadata = true))
    (hsink : (outfile ≠ "" ∧ env.osCreate outfile = none) ∨
      (outfile = "" ∧ env.isTerminalOut = false)) :
    let suffix := match diff, metadata with
      | false, false => "/export"
      | true, false => "/diff"
      | _, true => "/metadata"
    let path := "/containers/" ++ T ++ suffix
    let sopts : StreamOpts :=
      { rawTerminal := true, input := Reader.nil,
        out := if outfile ≠ "" then Writer.file outfile else Writer.cliOut }
    let run := CmdExport env { outfile := outfile, diff := diff, metadata := metadata, args := [T] }
    run.2 = (if outfile ≠ "" then [Event.create outfile] else []) ++ [Event.stream "GET" path sopts]
      ∧ run.1 = (env.stream "GET" path sopts).map Error.external
      ∧ (run.1 = none ↔ env.stream "GET" path sopts = none) := by
  rcases hsink with ⟨ho, hc⟩ | ⟨ho, ht⟩
  · cases diff <;> cases metadata <;> simp at hmode <;>
      simp [CmdExport, exportStream, doStream, Arg, ho, hc]
  · cases diff <;> cases metadata <;> simp at hmode <;>
      simp [CmdExport, exportStream, doStream, Arg, ho, ht]

/-- Witness of C2: `export -o out.tar mycontainer` where every callee succeeds. -/
theorem CmdExport_stream_witness :
    ¬ (false = true ∧ false = true) ∧
    (("out.tar" ≠ "" ∧ envOk.osCreate "out.tar" = none) ∨
      ("out.tar" = "" ∧ envOk.isTerminalOut = false)) ∧
    (CmdExport envOk
        { outfile := "out.tar", diff := false, metadata := false, args := ["mycontainer"] }).2
      = [Event.create "out.tar",
         Event.stream "GET" "/containers/mycontainer/export"
           { rawTerminal := true, input := Reader.nil, out := Writer.file "out.tar" }] ∧
    (CmdExport envOk
        { outfile := "out.tar", diff := false, metadata := false, args := ["mycontainer"] }).1
      = none :=
  ⟨by decide, Or.inl ⟨by decide, rfl⟩,
   (CmdExport_stream envOk "out.tar" "mycontainer" false false (by decide)
      (Or.inl ⟨by decide, rfl⟩)).1,
   (CmdExport_stream envOk "out.tar" "mycontainer" false false (by decide)
      (Or.inl ⟨by decide, rfl⟩)).2.1⟩

/-- C3: when `--diff` and `--metadata` are not both given, `CmdExport` returns the
terminal-guard error if and only if there is no `-o` path and the default sink is a
terminal, and then it has made no call at all; with an `-o` path the terminal state does
not change the result or the calls; with no `-o` path and a default sink that is not a
terminal the only call is one raw `GET` stream to the default sink, and the result is
the error of that call. -/
theorem CmdExport_terminal_guard (env : Env) (cmd : ExportCmd)
    (hmode : ¬ (cmd.diff = true ∧ cmd.metadata = true)) :
    ((CmdExport env cmd).1 = some (Error.errorsNew exportTerminalMsg)
        ↔ (cmd.outfile = "" ∧ env.isTerminalOut = true))
      ∧ (cmd.outfile = "" ∧ env.isTerminalOut = true → (CmdExport env cmd).2 = [])
      ∧ (cmd.outfile ≠ "" →
          ∀ b : Bool, CmdExport { env with isTerminalOut := b } cmd = CmdExport env cmd)
      ∧ (cmd.outfile = "" ∧ env.isTerminalOut = false →
          ∃ path : String,
            (CmdExport env cmd).2 = [Event.stream "GET" path
              { rawTerminal := true, input := Reader.nil, out := Writer.cliOut }]
            ∧ (CmdExport env cmd).1 = (env.stream "GET" path
              { rawTerminal := true, input := Reader.nil, out := Writer.cliOut }).map
                Error.external) := by
  obtain ⟨outfile, diff, metadata, args⟩ := cmd
  refine ⟨?_, ?_, ?_, ?_⟩
  · by_cases ho : outfile = ""
    · cases ht : env.isTerminalOut <;> cases diff <;> cases metadata <;> simp at hmode <;>
        simp [CmdExport, exportStream, doStream, ho, ht]
    · cases hc : env.osCreate outfile <;> cases diff <;> cases metadata <;> simp at hmode <;>
        simp [CmdExport, exportStream, doStream, ho, hc]
  · rintro ⟨ho, ht⟩
    cases diff <;> cases metadata <;> simp at hmode <;>
      simp_all [CmdExport]
  · intro ho b
    simp only [ne_eq] at ho
    simp [CmdExport, exportStream, doStream, ho]
  · rintro ⟨ho, ht⟩
    cases diff <;> cases metadata <;> simp at hmode <;>
      simp_all [CmdExport, exportStream, doStream]

/-- Witness of C3: `export mycontainer` with a terminal as default sink is refused,
and nothing was called. -/
theorem CmdExport_terminal_guard_witness :
    ¬ (false = true ∧ false = true) ∧
    CmdExport { envOk with isTerminalOut := true }
        { outfile := "", diff := false, metadata := false, args := ["mycontainer"] }
      = (some (Error.errorsNew exportTerminalMsg), []) :=
  ⟨by decide,
   Prod.ext
    ((CmdExport_terminal_guard { envOk with isTerminalOut := true }
        { outfile := "", diff := false, metadata := false, args := ["mycontainer"] }
        (by decide)).1.2 ⟨rfl, rfl⟩)
    ((CmdExport_terminal_guard { envOk with isTerminalOut := true }
        { outfile := "", diff := false, metadata := false, args := ["mycontainer"] }
        (by decide)).2.1 ⟨rfl, rfl⟩)⟩

/-! ## Theorems: import -/

/-- The stream calls of `importStream`: one `POST`, to the endpoint of the mode. -/
theorem importStream_calls (env : Env) (cmd : ImportCmd) (v : Values) (input : Reader)
    (before deferred : List Event) :
    (importStream env cmd v input before deferred).2
      = before ++ [Event.stream "POST"
          (if cmd.flDiff ≠ "" then "/containers/diff?" ++ v.Encode
            else if cmd.flMetadata = true then "/containers/metadata"
            else "/images/create?" ++ v.Encode)
          { rawTerminal := true, input := input, out := Writer.cliOut }] ++ deferred := by
  unfold importStream
  split
  · simp [doStream]
  · split <;> simp [doStream]

/-- The result of `importStream`: the error of its stream call. -/
theorem importStream_result (env : Env) (cmd : ImportCmd) (v : Values) (input : Reader)
    (before deferred : List Event) :
    (importStream env cmd v input before deferred).1
      = (env.stream "POST"
          (if cmd.flDiff ≠ "" then "/containers/diff?" ++ v.Encode
            else if cmd.flMetadata = true then "/containers/metadata"
            else "/images/create?" ++ v.Encode)
          { rawTerminal := true, input := input, out := Writer.cliOut }).map Error.external := by
  unfold importStream
  split
  · simp [doStream]
  · split <;> simp [doStream]

/-- The four ways through `importTransfer`. -/
theorem importTransfer_cases (env : Env) (cmd : ImportCmd) (v : Values) (src : String)
    (before : List Event) :
    (src = "-" ∧
      importTransfer env cmd v src before = importStream env cmd v Reader.cliIn before [])
    ∨ (src ≠ "-" ∧ env.IsURL src = true ∧
      importTransfer env cmd v src before = importStream env cmd v Reader.nil before [])
    ∨ (src ≠ "-" ∧ env.IsURL src = false ∧ (∃ e, env.osOpen src = some e ∧
      importTransfer env cmd v src before
        = (some (Error.external e), before ++ [Event.openFile src])))
    ∨ (src ≠ "-" ∧ env.IsURL src = false ∧ env.osOpen src = none ∧
      importTransfer env cmd v src before
        = importStream env cmd (v.Set "fromSrc" "-") (Reader.file src)
            (before ++ [Event.openFile src]) [Event.close src]) := by
  by_cases hs : src = "-"
  · left; simp [importTransfer, hs]
  · right
    cases hu : env.IsURL src
    · right
      cases ho : env.osOpen src
      · right; simp [importTransfer, hs, hu, ho]
      · left; simp [importTransfer, hs, hu, ho]
    · left; simp [importTransfer, hs, hu]

/-- The three ways through `CmdImport`: the mode error, the error of the repository
name check, and the transfer. -/
theorem CmdImport_cases (env : Env) (cmd : ImportCmd) :
    (cmd.flMetadata = true ∧ cmd.flDiff ≠ "" ∧
      CmdImport env cmd = (some (Error.errorsNew importSequentialMsg), []))
    ∨ (¬ (cmd.flMetadata = true ∧ cmd.flDiff ≠ "") ∧ (∃ e, checkResult env cmd = some e ∧
      CmdImport env cmd
        = (some (Error.external e), importWarning cmd ++ checkEvents env cmd)))
    ∨ (¬ (cmd.flMetadata = true ∧ cmd.flDiff ≠ "") ∧ checkResult env cmd = none ∧
      CmdImport env cmd
        = importTransfer env cmd (importValues cmd) (Arg cmd.args 0)
            (importWarning cmd ++ checkEvents env cmd)) := by
  by_cases hmode : cmd.flMetadata = true ∧ cmd.flDiff ≠ ""
  · left
    obtain ⟨hm, hd⟩ := hmode
    simp only [ne_eq] at hd
    simp [CmdImport, hm, hd]
  · right
    have hc : (cmd.flMetadata && decide (cmd.flDiff ≠ "")) = false := by
      cases hm : cmd.flMetadata <;> simp_all
    by_cases hr : Arg cmd.args 1 = ""
    · right
      simp [CmdImport, hc, hr, checkResult, checkEvents, hmode]
    · cases hv : env.ValidateRepositoryName (env.ParseRepositoryTag (Arg cmd.args 1)).1
      · right
        simp [CmdImport, hc, hr, checkResult, checkEvents, hmode, hv]
      · left
        simp [CmdImport, hc, hr, checkResult, checkEvents, hmode, hv]

/-- After `Set`, the key holds the one value. -/
theorem Values.lookup_Set_same (v : Values) (key value : String) :
    (v.Set key value).lookup key = [value] := by
  induction v with
  | nil => simp [Values.Set, Values.lookup]
  | cons kv rest ih =>
    obtain ⟨k, vs⟩ := kv
    by_cases h : k = key
    · simp [Values.Set, Values.lookup, h]
    · simp [Values.Set, Values.lookup, h, ih]

/-- `Set` leaves the other keys as they are. -/
theorem Values.lookup_Set_other (v : Values) (key value other : String) (h : key ≠ other) :
    (v.Set key value).lookup other = v.lookup other := by
  induction v with
  | nil => simp [Values.Set, Values.lookup, h]
  | cons kv rest ih =>
    obtain ⟨k, vs⟩ := kv
    by_cases hk : k = key
    · subst hk
      simp [Values.Set, Values.lookup, h]
    · by_cases hko : k = other
      · subst hko
        simp [Values.Set, Values.lookup, Ne.symm h]
      · simp [Values.Set, Values.lookup, hk, hko, ih]

/-- `Add` leaves the other keys as they are. -/
theorem Values.lookup_Add_other (v : Values) (key value other : String) (h : key ≠ other) :
    (v.Add key value).lookup other = v.lookup other := by
  induction v with
  | nil => simp [Values.Add, Values.lookup, h]
  | cons kv rest ih =>
    obtain ⟨k, vs⟩ := kv
    by_cases hk : k = key
    · subst hk
      simp [Values.Add, Values.lookup, h]
    · by_cases hko : k = other
      · subst hko
        simp [Values.Add, Values.lookup, Ne.symm h]
      · simp [Values.Add, Values.lookup, hk, hko, ih]

/-- Adding a list of values under one key leaves the other keys as they are. -/
theorem Values.lookup_foldl_Add_other (key other : String) (h : key ≠ other)
    (xs : List String) (v : Values) :
    (xs.foldl (fun v x => v.Add key x) v).lookup other = v.lookup other := by
  induction xs generalizing v with
  | nil => rfl
  | cons x xs ih => simp [List.foldl, ih, Values.lookup_Add_other _ _ _ _ h]

/-- The parameters built by `CmdImport` hold the source token as `fromSrc`. -/
theorem importValues_fromSrc (cmd : ImportCmd) :
    (importValues cmd).lookup "fromSrc" = [Arg cmd.args 0] := by
  unfold importValues
  split <;> split <;>
    simp [Values.lookup_Set_other, Values.lookup_foldl_Add_other, Values.lookup_Set_same]

/-! ### The encoded query, spelled out -/

/-- The loop of `encodeKey` writes the items of its key. -/
theorem encodeKey_eq (v : Values) (buf k : String) :
    encodeKey v buf k = joinAmp buf (v.items [k]) := by
  simp only [encodeKey, joinAmp, Values.items, List.flatMap_cons, List.flatMap_nil,
    List.append_nil, List.foldl_map, String.append_assoc]

/-- The two loops of `Encode` write the items of all keys. -/
theorem foldl_encodeKey (v : Values) (keys : List String) (buf : String) :
    keys.foldl (encodeKey v) buf = joinAmp buf (v.items keys) := by
  induction keys generalizing buf with
  | nil => rfl
  | cons k ks ih =>
    rw [List.foldl_cons, ih, encodeKey_eq]
    simp [joinAmp, Values.items, List.foldl_append]

/-- On a buffer that is not empty the loop is the loop of `String.intercalate`. -/
theorem joinAmp_eq_go (items : List String) (buf : String) (h : buf.length > 0) :
    joinAmp buf items = String.intercalate.go buf "&" items := by
  induction items generalizing buf with
  | nil => rfl
  | cons p ps ih =>
    have hlen : (buf ++ "&" ++ p).length > 0 := by
      simp only [String.length_append]; omega
    simp only [joinAmp, List.foldl_cons, h, if_true, String.intercalate.go]
    exact ih _ hlen

/-- On items none of which is empty, the loop from the empty buffer joins them
with `&`. -/
theorem joinAmp_eq_intercalate (items : List String) (h : ∀ p ∈ items, p.length > 0) :
    joinAmp "" items = "&".intercalate items := by
  cases items with
  | nil => rfl
  | cons p ps =>
    have hp : p.length > 0 := h p (by simp)
    have h0 : ¬ ("".length > 0) := by decide
    simp only [joinAmp, List.foldl_cons, h0, if_false, String.intercalate]
    rw [show "" ++ p = p by simp]
    exact joinAmp_eq_go ps p hp

/-- No item `key=value` is empty. -/
theorem Values.items_length_pos (v : Values) (keys : List String) :
    ∀ p ∈ v.items keys, p.length > 0 := by
  intro p hp
  simp only [Values.items, List.mem_flatMap, List.mem_map] at hp
  obtain ⟨k, -, x, -, rfl⟩ := hp
  have : "=".length = 1 := rfl
  simp only [String.length_append, this]
  omega

/-- The result of `Encode`: the items of the sorted keys joined with `&`. -/
theorem Values.Encode_eq (v : Values) :
    v.Encode = "&".intercalate (v.items (sortStrings (v.map Prod.fst))) := by
  unfold Values.Encode
  rw [foldl_encodeKey, joinAmp_eq_intercalate _ (Values.items_length_pos v _)]

/-- Values added under a key that is the last entry are appended to that entry. -/
theorem foldl_Add_last (key : String) (xs : List String) :
    ∀ (v : Values) (ys : List String), (∀ kv ∈ v, kv.1 ≠ key) →
      xs.foldl (fun v x => v.Add key x) (v ++ [(key, ys)]) = v ++ [(key, ys ++ xs)] := by
  have hadd : ∀ (v : Values) (ys : List String) (x : String), (∀ kv ∈ v, kv.1 ≠ key) →
      Values.Add (v ++ [(key, ys)]) key x = v ++ [(key, ys ++ [x])] := by
    intro v
    induction v with
    | nil => intro ys x _; simp [Values.Add]
    | cons kv rest ih =>
      intro ys x h
      obtain ⟨k, vs⟩ := kv
      have hk : k ≠ key := h (k, vs) (by simp)
      have := ih ys x (fun kv hkv => h kv (by simp [hkv]))
      simp only [List.cons_append, Values.Add, hk, if_false]
      exact congrArg (List.cons (k, vs)) this
  induction xs with
  | nil => intro v ys _; simp
  | cons x xs ih =>
    intro v ys h
    rw [List.foldl_cons, hadd v ys x h, ih v _ h]
    simp

/-- Values added under a key that is absent make a new last entry. -/
theorem foldl_Add_absent (key : String) (xs : List String) (v : Values)
    (h : ∀ kv ∈ v, kv.1 ≠ key) :
    xs.foldl (fun v x => v.Add key x) v = v ++ (if xs = [] then [] else [(key, xs)]) := by
  have hadd : ∀ (v : Values) (x : String), (∀ kv ∈ v, kv.1 ≠ key) →
      Values.Add v key x = v ++ [(key, [x])] := by
    intro v
    induction v with
    | nil => intro x _; simp [Values.Add]
    | cons kv rest ih =>
      intro x h
      obtain ⟨k, vs⟩ := kv
      have hk : k ≠ key := h (k, vs) (by simp)
      have := ih x (fun kv hkv => h kv (by simp [hkv]))
      simp only [List.cons_append, Values.Add, hk, if_false]
      exact congrArg (List.cons (k, vs)) this
  cases xs with
  | nil => simp
  | cons x xs =>
    rw [List.foldl_cons, hadd v x h, foldl_Add_last key xs v [x] h]
    simp

/-- The parameters that `CmdImport` builds are the entries of `importParams`. -/
theorem importValues_eq (cmd : ImportCmd) :
    importValues cmd = importParams cmd (Arg cmd.args 0) := by
  unfold importValues importParams
  by_cases hd : cmd.flDiff = "" <;> by_cases hn : NArg cmd.args = 3 <;>
    by_cases hc : cmd.flChanges = [] <;>
    simp [hd, hn, hc, Values.Set, foldl_Add_absent]

/-- Overriding `fromSrc` changes that entry alone. -/
theorem importParams_Set_fromSrc (cmd : ImportCmd) (f g : String) :
    (importParams cmd f).Set "fromSrc" g = importParams cmd g := by
  unfold importParams
  by_cases hd : cmd.flDiff = "" <;> simp [hd, Values.Set]

/-- The six keys of the `import` parameters are written as they are. -/
theorem QueryEscape_keys :
    QueryEscape "changes" = "changes" ∧ QueryEscape "container" = "container"
      ∧ QueryEscape "fromSrc" = "fromSrc" ∧ QueryEscape "message" = "message"
      ∧ QueryEscape "repo" = "repo" ∧ QueryEscape "tag" = "tag" := by
  decide

/-- The encoding of the `import` parameters is the query spelled out. -/
theorem importParams_Encode (cmd : ImportCmd) (f : String) :
    (importParams cmd f).Encode = importQuery cmd f := by
  obtain ⟨h1, h2, h3, h4, h5, h6⟩ := QueryEscape_keys
  rw [Values.Encode_eq]
  unfold importParams importQuery
  by_cases hd : cmd.flDiff = "" <;> by_cases hn : NArg cmd.args = 3 <;>
    by_cases hc : cmd.flChanges = [] <;>
    simp [hd, hn, hc, sortStrings, insertKey, stringLess, Values.items, Values.lookup,
      h1, h2, h3, h4, h5, h6]

/-- C4: with `--metadata` and a non-empty `--diff` value `CmdImport` returns the mode
error whatever the other arguments are, having called nothing; otherwise every stream
call it makes is a `POST`, to `/containers/metadata` when `--metadata` is set, to
`/containers/diff` with a query when the `--diff` value is not empty, and to
`/images/create` with a query when neither is given. -/
theorem CmdImport_mode (env : Env) (cmd : ImportCmd) :
    (cmd.flMetadata = true ∧ cmd.flDiff ≠ "" →
        CmdImport env cmd = (some (Error.errorsNew importSequentialMsg), []))
      ∧ (¬ (cmd.flMetadata = true ∧ cmd.flDiff ≠ "") →
        ∀ (method path : String) (sopts : StreamOpts),
          Event.stream method path sopts ∈ (CmdImport env cmd).2 →
            method = "POST"
            ∧ (cmd.flMetadata = true → path = "/containers/metadata")
            ∧ (cmd.flDiff ≠ "" → ∃ q : String, path = "/containers/diff?" ++ q)
            ∧ (cmd.flMetadata = false ∧ cmd.flDiff = "" →
                ∃ q : String, path = "/images/create?" ++ q)) := by
  refine ⟨?_, ?_⟩
  · rintro ⟨hm, hd⟩
    simp only [ne_eq] at hd
    simp [CmdImport, hm, hd]
  · intro hmode method path sopts hmem
    have hnotin : Event.stream method path sopts ∉ importWarning cmd ++ checkEvents env cmd := by
      unfold importWarning checkEvents
      split <;> split <;> simp
    have key : ∀ (v : Values) (input : Reader) (before deferred : List Event),
        Event.stream method path sopts ∉ before → Event.stream method path sopts ∉ deferred →
        Event.stream method path sopts ∈ (importStream env cmd v input before deferred).2 →
        method = "POST"
          ∧ (cmd.flMetadata = true → path = "/containers/metadata")
          ∧ (cmd.flDiff ≠ "" → ∃ q : String, path = "/containers/diff?" ++ q)
          ∧ (cmd.flMetadata = false ∧ cmd.flDiff = "" →
              ∃ q : String, path = "/images/create?" ++ q) := by
      intro v input before deferred hb hd hin
      rw [importStream_calls] at hin
      simp only [List.mem_append, List.mem_singleton, hb, hd, or_false, false_or,
        Event.stream.injEq] at hin
      obtain ⟨h1, h2, -⟩ := hin
      subst h1 h2
      refine ⟨rfl, ?_, ?_, ?_⟩
      · intro hm
        have hd0 : cmd.flDiff = "" := by
          by_contra h
          exact hmode ⟨hm, h⟩
        simp [hd0, hm]
      · intro hd1
        exact ⟨v.Encode, by simp [hd1]⟩
      · rintro ⟨hm, hd0⟩
        exact ⟨v.Encode, by simp [hd0, hm]⟩
    rcases CmdImport_cases env cmd with ⟨hm, hd, -⟩ | ⟨-, e, -, h⟩ | ⟨-, -, h⟩
    · exact absurd ⟨hm, hd⟩ hmode
    · rw [h] at hmem
      exact absurd hmem hnotin
    · rw [h] at hmem
      rcases importTransfer_cases env cmd (importValues cmd) (Arg cmd.args 0)
          (importWarning cmd ++ checkEvents env cmd) with
        ⟨-, h2⟩ | ⟨-, -, h2⟩ | ⟨-, -, e, -, h2⟩ | ⟨-, -, -, h2⟩
      · rw [h2] at hmem
        exact key _ _ _ _ hnotin (by simp) hmem
      · rw [h2] at hmem
        exact key _ _ _ _ hnotin (by simp) hmem
      · rw [h2] at hmem
        simp only [List.mem_append, List.mem_singleton] at hmem
        rcases hmem with hmem | hmem
        · exact absurd (List.mem_append.mpr hmem) hnotin
        · cases hmem
      · rw [h2] at hmem
        refine key _ _ _ _ ?_ (by simp) hmem
        intro hin
        rcases List.mem_append.mp hin with hin | hin
        · exact hnotin hin
        · simp at hin

/-- Witness of C4: `import --metadata --diff c1 -` is refused with the mode error, and
the stream call of `import - myrepo:latest` is a `POST` to `/images/create`. -/
theorem CmdImport_mode_witness :
    CmdImport envOk
        { flChanges := [], message := "", flDiff := "c1", flMetadata := true, args := ["-"] }
      = (some (Error.errorsNew importSequentialMsg), [])
    ∧ Event.stream "POST" "/images/create?fromSrc=-&message=&repo=myrepo%3Alatest"
        { rawTerminal := true, input := Reader.cliIn, out := Writer.cliOut }
      ∈ (CmdImport envOk importStdinTagged).2
    ∧ ∃ q : String,
        "/images/create?fromSrc=-&message=&repo=myrepo%3Alatest" = "/images/create?" ++ q :=
  ⟨(CmdImport_mode envOk
      { flChanges := [], message := "", flDiff := "c1", flMetadata := true,
        args := ["-"] }).1 ⟨rfl, by decide⟩,
   by decide,
   ((CmdImport_mode envOk importStdinTagged).2 (by decide) "POST"
      "/images/create?fromSrc=-&message=&repo=myrepo%3Alatest"
      { rawTerminal := true, input := Reader.cliIn, out := Writer.cliOut }
      (by decide)).2.2.2 ⟨rfl, rfl⟩⟩

/-- The warning and the name check involve no file and no stream call. -/
theorem prelude_filter_isTransfer (env : Env) (cmd : ImportCmd) :
    (importWarning cmd ++ checkEvents env cmd).filter Event.isTransfer = [] := by
  unfold importWarning checkEvents
  split <;> split <;> simp [Event.isTransfer, Event.isOpen, Event.isStream, Event.isClose]

/-- When the name check passes, `CmdImport` is the transfer after the warning and the
check. -/
theorem CmdImport_of_check (env : Env) (cmd : ImportCmd)
    (hmode : ¬ (cmd.flMetadata = true ∧ cmd.flDiff ≠ ""))
    (hcheck : Arg cmd.args 1 = "" ∨
      env.ValidateRepositoryName (env.ParseRepositoryTag (Arg cmd.args 1)).1 = none) :
    CmdImport env cmd
      = importTransfer env cmd (importValues cmd) (Arg cmd.args 0)
          (importWarning cmd ++ checkEvents env cmd) := by
  have hres : checkResult env cmd = none := by
    unfold checkResult
    rcases hcheck with h | h
    · simp [h]
    · simp [h]
  rcases CmdImport_cases env cmd with ⟨hm, hd, -⟩ | ⟨-, e, he, -⟩ | ⟨-, -, h⟩
  · exact absurd ⟨hm, hd⟩ hmode
  · rw [hres] at he
    cases he
  · exact h

/-- C5: for an invocation that passes the mode check and the repository name check, the
file and transport calls of `CmdImport` are, in order: (1) for the source `-`, one
stream call whose body is the primary input, and no file is opened; (2) for a source
that `IsURL` accepts, one stream call with no body whose `fromSrc` parameter is the
token, and no file is opened; (3) for any other source, the opening of the file at the
token, and when it opens, one stream call whose body is that file and whose `fromSrc`
parameter is `-`, then the closing of the file, which is the last event whatever the
stream call returned; when it does not open nothing follows. -/
theorem CmdImport_source (env : Env) (cmd : ImportCmd)
    (hmode : ¬ (cmd.flMetadata = true ∧ cmd.flDiff ≠ ""))
    (hcheck : Arg cmd.args 1 = "" ∨
      env.ValidateRepositoryName (env.ParseRepositoryTag (Arg cmd.args 1)).1 = none) :
    let src := Arg cmd.args 0
    let call := fun (v : Values) (input : Reader) =>
      Event.stream "POST"
        (if cmd.flDiff ≠ "" then "/containers/diff?" ++ v.Encode
          else if cmd.flMetadata = true then "/containers/metadata"
          else "/images/create?" ++ v.Encode)
        { rawTerminal := true, input := input, out := Writer.cliOut }
    (src = "-" →
        (CmdImport env cmd).2.filter Event.isTransfer = [call (importValues cmd) Reader.cliIn])
      ∧ (src ≠ "-" → env.IsURL src = true →
        (CmdImport env cmd).2.filter Event.isTransfer = [call (importValues cmd) Reader.nil]
          ∧ (importValues cmd).lookup "fromSrc" = [src])
      ∧ (src ≠ "-" → env.IsURL src = false → env.osOpen src = none →
        (CmdImport env cmd).2.filter Event.isTransfer
            = [Event.openFile src,
               call ((importValues cmd).Set "fromSrc" "-") (Reader.file src),
               Event.close src]
          ∧ ((importValues cmd).Set "fromSrc" "-").lookup "fromSrc" = ["-"]
          ∧ (CmdImport env cmd).2.getLast? = some (Event.close src))
      ∧ (src ≠ "-" → env.IsURL src = false → env.osOpen src ≠ none →
        (CmdImport env cmd).2.filter Event.isTransfer = [Event.openFile src]) := by
  intro src call
  have hrun := CmdImport_of_check env cmd hmode hcheck
  have hpre := prelude_filter_isTransfer env cmd
  rcases importTransfer_cases env cmd (importValues cmd) (Arg cmd.args 0)
      (importWarning cmd ++ checkEvents env cmd) with
    ⟨hs, h2⟩ | ⟨hs, hu, h2⟩ | ⟨hs, hu, e, ho, h2⟩ | ⟨hs, hu, ho, h2⟩
  · refine ⟨fun _ => ?_, fun h => absurd hs h, fun h => absurd hs h, fun h => absurd hs h⟩
    rw [hrun, h2, importStream_calls, List.filter_append, List.filter_append, hpre]
    simp [call, Event.isTransfer, Event.isStream]
  · refine ⟨fun h => absurd h hs, fun _ _ => ⟨?_, importValues_fromSrc cmd⟩,
      fun _ h => ?_, fun _ h => ?_⟩
    · rw [hrun, h2, importStream_calls, List.filter_append, List.filter_append, hpre]
      simp [call, Event.isTransfer, Event.isStream]
    · rw [hu] at h; cases h
    · rw [hu] at h; cases h
  · refine ⟨fun h => absurd h hs, fun _ h => ?_, fun _ _ h => ?_, fun _ _ _ => ?_⟩
    · rw [hu] at h; cases h
    · rw [ho] at h; cases h
    · rw [hrun, h2, List.filter_append, hpre]
      simp [src, Event.isTransfer, Event.isOpen]
  · refine ⟨fun h => absurd h hs, fun _ h => ?_, fun _ _ _ => ⟨?_, ?_, ?_⟩,
      fun _ _ h => absurd ho h⟩
    · rw [hu] at h; cases h
    · rw [hrun, h2, importStream_calls, List.filter_append, List.filter_append,
        List.filter_append, hpre]
      simp [src, call, Event.isTransfer, Event.isOpen, Event.isStream, Event.isClose]
    · exact Values.lookup_Set_same _ _ _
    · rw [hrun, h2, importStream_calls]
      simp [src]

/-- Witness of C5: `import ./archive.tar myrepo` where the file opens. -/
theorem CmdImport_source_witness :
    ¬ (importArchive.flMetadata = true ∧ importArchive.flDiff ≠ "")
      ∧ (Arg importArchive.args 1 = "" ∨
        envOk.ValidateRepositoryName (envOk.ParseRepositoryTag (Arg importArchive.args 1)).1
          = none)
      ∧ (CmdImport envOk importArchive).2.filter Event.isTransfer
        = [Event.openFile "./archive.tar",
           Event.stream "POST" "/images/create?fromSrc=-&message=&repo=myrepo"
             { rawTerminal := true, input := Reader.file "./archive.tar", out := Writer.cliOut },
           Event.close "./archive.tar"] :=
  ⟨by decide, Or.inr rfl,
   ((CmdImport_source envOk importArchive (by decide) (Or.inr rfl)).2.2.1
      (by decide) rfl rfl).1.trans (by decide)⟩

/-- A list with a single element that satisfies `p` splits at it in one way only. -/
theorem split_unique {α : Type} (p : α → Bool) (x y : α) (hy : p y = true)
    (post after : List α) (hpost : ∀ a ∈ post, p a = false) :
    ∀ (pre before : List α), (∀ a ∈ pre, p a = false) →
      pre ++ x :: post = before ++ y :: after → pre = before ∧ x = y ∧ post = after := by
  intro pre
  induction pre with
  | nil =>
    intro before _ h
    cases before with
    | nil =>
      simp only [List.nil_append, List.cons.injEq] at h
      exact ⟨rfl, h.1, h.2⟩
    | cons b bs =>
      simp only [List.nil_append, List.cons_append, List.cons.injEq] at h
      have hmem : y ∈ post := by rw [h.2]; simp
      rw [hpost y hmem] at hy
      cases hy
  | cons a rest ih =>
    intro before hpre h
    cases before with
    | nil =>
      simp only [List.nil_append, List.cons_append, List.cons.injEq] at h
      have := hpre a (by simp)
      rw [h.1, hy] at this
      cases this
    | cons b bs =>
      simp only [List.cons_append, List.cons.injEq] at h
      obtain ⟨hab, hrest⟩ := h
      obtain ⟨h1, h2, h3⟩ := ih bs (fun c hc => hpre c (by simp [hc])) hrest
      exact ⟨by rw [hab, h1], h2, h3⟩

/-- The warning and the name check are not stream calls and close no file. -/
theorem prelude_not_stream (env : Env) (cmd : ImportCmd) :
    ∀ ev ∈ importWarning cmd ++ checkEvents env cmd,
      ev.isStream = false ∧ ev.isClose = false ∧ ev.isOpen = false := by
  unfold importWarning checkEvents
  split <;> split <;> simp [Event.isStream, Event.isClose, Event.isOpen]

/-- A run of `importStream` split at a stream call: the call is the one of the mode, the
result is its error, and the parts around it are `before` and `deferred`. -/
theorem importStream_split (env : Env) (cmd : ImportCmd) (v : Values) (input : Reader)
    (pre deferred : List Event)
    (hpre : ∀ ev ∈ pre, ev.isStream = false) (hdef : ∀ ev ∈ deferred, ev.isStream = false)
    (before after : List Event) (method path : String) (sopts : StreamOpts)
    (h : (importStream env cmd v input pre deferred).2
      = before ++ Event.stream method path sopts :: after) :
    (importStream env cmd v input pre deferred).1
        = (env.stream method path sopts).map Error.external
      ∧ before = pre ∧ after = deferred := by
  rw [importStream_calls, List.append_assoc, List.singleton_append] at h
  obtain ⟨h1, h2, h3⟩ := split_unique Event.isStream _ (Event.stream method path sopts) rfl
    deferred after hdef pre before hpre h
  simp only [Event.stream.injEq] at h2
  obtain ⟨hm, hp, hs⟩ := h2
  rw [importStream_result, hm, hp, hs]
  exact ⟨rfl, h1.symm, h3.symm⟩

/-- The run of `CmdImport` when the validator rejects the repository name. -/
theorem CmdImport_rejected (env : Env) (cmd : ImportCmd)
    (hmode : ¬ (cmd.flMetadata = true ∧ cmd.flDiff ≠ "")) (hr : Arg cmd.args 1 ≠ "")
    (e : String)
    (hv : env.ValidateRepositoryName (env.ParseRepositoryTag (Arg cmd.args 1)).1 = some e) :
    CmdImport env cmd
      = (some (Error.external e),
         importWarning cmd ++ [Event.validate (env.ParseRepositoryTag (Arg cmd.args 1)).1]) := by
  rcases CmdImport_cases env cmd with ⟨hm, hd, -⟩ | ⟨-, e2, he, h⟩ | ⟨-, he, -⟩
  · exact absurd ⟨hm, hd⟩ hmode
  · simp only [checkResult, hr, hv, ne_eq, not_false_eq_true, if_true] at he
    cases he
    simpa [checkEvents, hr] using h
  · simp [checkResult, hr, hv] at he

/-- C9: the stages of `CmdImport` run in the order mode check, repository name check,
opening of the source, stream call, and a failure ends the run with its own error:
(1) on a mode conflict the result is the mode error and nothing was called (no name
check, no file, no stream call); (2) when the validator rejects the name with `e` the
result is `e` and the calls are the warning, if any, and the validator call, so no file
was opened and no stream call made; (3) when the local source file does not open, with
error `e`, the result is `e` and the last call is that `os.Open`, with no stream call
before it; (4) in every run, a stream call is the last call but for the closing of the
file, nothing but the warning, the name check and the opening of the file precedes it,
and the result is the error of that stream call as the transport returned it. -/
theorem CmdImport_failure_order (env : Env) (cmd : ImportCmd) :
    (cmd.flMetadata = true ∧ cmd.flDiff ≠ "" →
        CmdImport env cmd = (some (Error.errorsNew importSequentialMsg), []))
      ∧ (¬ (cmd.flMetadata = true ∧ cmd.flDiff ≠ "") → Arg cmd.args 1 ≠ "" →
          ∀ e, env.ValidateRepositoryName (env.ParseRepositoryTag (Arg cmd.args 1)).1 = some e →
            CmdImport env cmd
              = (some (Error.external e),
                 importWarning cmd ++ [Event.validate (env.ParseRepositoryTag (Arg cmd.args 1)).1]))
      ∧ (¬ (cmd.flMetadata = true ∧ cmd.flDiff ≠ "") →
          (Arg cmd.args 1 = "" ∨
            env.ValidateRepositoryName (env.ParseRepositoryTag (Arg cmd.args 1)).1 = none) →
          Arg cmd.args 0 ≠ "-" → env.IsURL (Arg cmd.args 0) = false →
          ∀ e, env.osOpen (Arg cmd.args 0) = some e →
            (CmdImport env cmd).1 = some (Error.external e)
            ∧ (CmdImport env cmd).2.getLast? = some (Event.openFile (Arg cmd.args 0))
            ∧ (CmdImport env cmd).2.filter Event.isStream = [])
      ∧ (∀ (before after : List Event) (method path : String) (sopts : StreamOpts),
          (CmdImport env cmd).2 = before ++ Event.stream method path sopts :: after →
            (CmdImport env cmd).1 = (env.stream method path sopts).map Error.external
            ∧ (∀ ev ∈ before, ev.isStream = false ∧ ev.isClose = false)
            ∧ (∀ ev ∈ after, ev.isClose = true)) := by
  refine ⟨?_, ?_, ?_, ?_⟩
  · rintro ⟨hm, hd⟩
    simp only [ne_eq] at hd
    simp [CmdImport, hm, hd]
  · exact CmdImport_rejected env cmd
  · intro hmode hcheck hs hu e ho
    rw [CmdImport_of_check env cmd hmode hcheck]
    have hpre := prelude_not_stream env cmd
    simp only [importTransfer, hs, hu, ho, if_false, Bool.not_false, if_true]
    refine ⟨trivial, by simp, ?_⟩
    rw [List.filter_append, List.filter_eq_nil_iff.mpr (fun ev hev => by simp [(hpre ev hev).1])]
    simp [Event.isStream]
  · intro before after method path sopts h
    have hpre := prelude_not_stream env cmd
    have hnone : ∀ l : List Event, (∀ ev ∈ l, ev.isStream = false) →
        l ≠ before ++ Event.stream method path sopts :: after := by
      intro l hl heq
      have := hl (Event.stream method path sopts) (by rw [heq]; simp)
      simp [Event.isStream] at this
    rcases CmdImport_cases env cmd with ⟨-, -, h0⟩ | ⟨-, e, -, h0⟩ | ⟨-, -, h0⟩
    · rw [h0] at h
      exact absurd h (hnone _ (by simp))
    · rw [h0] at h
      exact absurd h (hnone _ (fun ev hev => (hpre ev hev).1))
    · rw [h0] at h ⊢
      rcases importTransfer_cases env cmd (importValues cmd) (Arg cmd.args 0)
          (importWarning cmd ++ checkEvents env cmd) with
        ⟨-, h2⟩ | ⟨-, -, h2⟩ | ⟨-, -, e, -, h2⟩ | ⟨-, -, -, h2⟩
      · rw [h2] at h ⊢
        obtain ⟨hr, hb, ha⟩ := importStream_split env cmd _ _ _ _
          (fun ev hev => (hpre ev hev).1) (by simp) _ _ _ _ _ h
        subst hb ha
        exact ⟨hr, fun ev hev => ⟨(hpre ev hev).1, (hpre ev hev).2.1⟩, by simp⟩
      · rw [h2] at h ⊢
        obtain ⟨hr, hb, ha⟩ := importStream_split env cmd _ _ _ _
          (fun ev hev => (hpre ev hev).1) (by simp) _ _ _ _ _ h
        subst hb ha
        exact ⟨hr, fun ev hev => ⟨(hpre ev hev).1, (hpre ev hev).2.1⟩, by simp⟩
      · rw [h2] at h
        refine absurd h (hnone _ ?_)
        intro ev hev
        rcases List.mem_append.mp hev with hev | hev
        · exact (hpre ev hev).1
        · simp only [List.mem_singleton] at hev
          subst hev
          rfl
      · rw [h2] at h ⊢
        have hpre2 : ∀ ev ∈ importWarning cmd ++ checkEvents env cmd
            ++ [Event.openFile (Arg cmd.args 0)], ev.isStream = false ∧ ev.isClose = false := by
          intro ev hev
          rcases List.mem_append.mp hev with hev | hev
          · exact ⟨(hpre ev hev).1, (hpre ev hev).2.1⟩
          · simp only [List.mem_singleton] at hev
            subst hev
            exact ⟨rfl, rfl⟩
        obtain ⟨hr, hb, ha⟩ := importStream_split env cmd _ _ _ _
          (fun ev hev => (hpre2 ev hev).1) (by simp [Event.isStream]) _ _ _ _ _ h
        subst hb ha
        exact ⟨hr, hpre2, by simp [Event.isClose]⟩

/-- Witness of C9: `import ./archive.tar myrepo` where the file cannot be opened
returns the error of `os.Open`, and no stream call is made. -/
theorem CmdImport_failure_order_witness :
    ¬ (importArchive.flMetadata = true ∧ importArchive.flDiff ≠ "")
      ∧ envUnreadable.osOpen (Arg importArchive.args 0) = some "open: permission denied"
      ∧ (CmdImport envUnreadable importArchive).1
        = some (Error.external "open: permission denied")
      ∧ (CmdImport envUnreadable importArchive).2.getLast?
        = some (Event.openFile (Arg importArchive.args 0))
      ∧ (CmdImport envUnreadable importArchive).2.filter Event.isStream = [] :=
  ⟨by decide, rfl,
   (CmdImport_failure_order envUnreadable importArchive).2.2.1 (by decide) (Or.inr rfl)
     (by decide) rfl "open: permission denied" rfl⟩

/-- C10: in each mode (the flags pass the mode check, so also with `--diff ID` or with
`--metadata`), when the second positional is not empty and the validator rejects its
repository part with `e`, `CmdImport` returns `e` and makes no stream call; and when the
second positional is empty the validator is not called. -/
theorem CmdImport_validates_in_every_mode (env : Env) (cmd : ImportCmd) :
    (¬ (cmd.flMetadata = true ∧ cmd.flDiff ≠ "") → Arg cmd.args 1 ≠ "" →
        ∀ e, env.ValidateRepositoryName (env.ParseRepositoryTag (Arg cmd.args 1)).1 = some e →
          (CmdImport env cmd).1 = some (Error.external e)
          ∧ (CmdImport env cmd).2.filter Event.isStream = []
          ∧ (CmdImport env cmd).2.filter Event.isValidate
              = [Event.validate (env.ParseRepositoryTag (Arg cmd.args 1)).1])
      ∧ (Arg cmd.args 1 = "" → (CmdImport env cmd).2.filter Event.isValidate = []) := by
  refine ⟨?_, ?_⟩
  · intro hmode hr e hv
    rw [((CmdImport_rejected env cmd hmode hr e hv))]
    unfold importWarning
    split <;> simp [Event.isStream, Event.isValidate]
  · intro hr
    have hwarn : (importWarning cmd).filter Event.isValidate = [] := by
      unfold importWarning
      split <;> simp [Event.isValidate]
    have hstream : ∀ (v : Values) (input : Reader) (deferred : List Event),
        deferred.filter Event.isValidate = [] →
        (importStream env cmd v input (importWarning cmd ++ checkEvents env cmd) deferred).2.filter
          Event.isValidate = [] := by
      intro v input deferred hd
      rw [importStream_calls]
      simp [List.filter_append, hwarn, hd, checkEvents, hr, Event.isValidate]
    rcases CmdImport_cases env cmd with ⟨-, -, h0⟩ | ⟨-, e, -, h0⟩ | ⟨-, -, h0⟩
    · rw [h0]; rfl
    · rw [h0]
      simp [List.filter_append, hwarn, checkEvents, hr]
    · rw [h0]
      rcases importTransfer_cases env cmd (importValues cmd) (Arg cmd.args 0)
          (importWarning cmd ++ checkEvents env cmd) with
        ⟨-, h2⟩ | ⟨-, -, h2⟩ | ⟨-, -, e, -, h2⟩ | ⟨-, -, -, h2⟩
      · rw [h2]; exact hstream _ _ _ rfl
      · rw [h2]; exact hstream _ _ _ rfl
      · rw [h2]
        simp [List.filter_append, hwarn, checkEvents, hr, Event.isValidate]
      · rw [h2, importStream_calls]
        simp [List.filter_append, hwarn, checkEvents, hr, Event.isValidate]

/-- Witness of C10: `import --diff c1 - myrepo` with a validator that rejects the
name returns the error of the validator and makes no stream call. -/
theorem CmdImport_validates_in_every_mode_witness :
    ¬ (false = true ∧ "c1" ≠ "")
      ∧ envRejecting.ValidateRepositoryName (envRejecting.ParseRepositoryTag "myrepo").1
        = some "Invalid repository name"
      ∧ (CmdImport envRejecting
          { flChanges := [], message := "", flDiff := "c1", flMetadata := false,
            args := ["-", "myrepo"] }).1 = some (Error.external "Invalid repository name")
      ∧ (CmdImport envRejecting
          { flChanges := [], message := "", flDiff := "c1", flMetadata := false,
            args := ["-", "myrepo"] }).2.filter Event.isStream = [] :=
  ⟨by decide, rfl,
   ((CmdImport_validates_in_every_mode envRejecting
      { flChanges := [], message := "", flDiff := "c1", flMetadata := false,
        args := ["-", "myrepo"] }).1 (by decide) (by decide) "Invalid repository name" rfl).1,
   ((CmdImport_validates_in_every_mode envRejecting
      { flChanges := [], message := "", flDiff := "c1", flMetadata := false,
        args := ["-", "myrepo"] }).1 (by decide) (by decide) "Invalid repository name" rfl).2.1⟩

/-- C6, counterexample: `import - myrepo:latest` validates the name `myrepo` and then
posts to `/images/create?fromSrc=-&message=&repo=myrepo%3Alatest`: the destination goes
out whole, as the one parameter `repo`, and the request
`/images/create?fromSrc=-&repo=myrepo&tag=latest` is not made. -/
theorem CmdImport_stdin_tagged_request :
    (CmdImport envOk importStdinTagged).2
        = [Event.validate "myrepo",
           Event.stream "POST" "/images/create?fromSrc=-&message=&repo=myrepo%3Alatest"
             { rawTerminal := true, input := Reader.cliIn, out := Writer.cliOut }]
      ∧ Event.stream "POST" "/images/create?fromSrc=-&repo=myrepo&tag=latest"
          { rawTerminal := true, input := Reader.cliIn, out := Writer.cliOut }
        ∉ (CmdImport envOk importStdinTagged).2 := by
  decide

/-- The run of `CmdImport` when the name check passes and the source resolves: the
warning, the name check, the opening of a local file, the stream call, the closing of
the file; the result is the error of the stream call. -/
theorem CmdImport_run (env : Env) (cmd : ImportCmd)
    (hmode : ¬ (cmd.flMetadata = true ∧ cmd.flDiff ≠ ""))
    (hcheck : Arg cmd.args 1 = "" ∨
      env.ValidateRepositoryName (env.ParseRepositoryTag (Arg cmd.args 1)).1 = none)
    (hsrc : Arg cmd.args 0 = "-" ∨ env.IsURL (Arg cmd.args 0) = true
      ∨ env.osOpen (Arg cmd.args 0) = none) :
    CmdImport env cmd
      = ((env.stream "POST" (importPath env cmd)
            { rawTerminal := true, input := importInput env cmd, out := Writer.cliOut }).map
          Error.external,
        importWarning cmd ++ checkEvents env cmd
          ++ (if Arg cmd.args 0 ≠ "-" ∧ env.IsURL (Arg cmd.args 0) = false then
                [Event.openFile (Arg cmd.args 0)] else [])
          ++ [Event.stream "POST" (importPath env cmd)
                { rawTerminal := true, input := importInput env cmd, out := Writer.cliOut }]
          ++ (if Arg cmd.args 0 ≠ "-" ∧ env.IsURL (Arg cmd.args 0) = false then
                [Event.close (Arg cmd.args 0)] else [])) := by
  have hrun := CmdImport_of_check env cmd hmode hcheck
  rcases importTransfer_cases env cmd (importValues cmd) (Arg cmd.args 0)
      (importWarning cmd ++ checkEvents env cmd) with
    ⟨hs, h2⟩ | ⟨hs, hu, h2⟩ | ⟨hs, hu, e, ho, h2⟩ | ⟨hs, hu, ho, h2⟩
  · rw [hrun, h2]
    refine Prod.ext ?_ ?_
    · rw [importStream_result, importValues_eq, importParams_Encode]
      simp [importPath, importInput, hs]
    · rw [importStream_calls, importValues_eq, importParams_Encode]
      simp [importPath, importInput, hs]
  · rw [hrun, h2]
    refine Prod.ext ?_ ?_
    · rw [importStream_result, importValues_eq, importParams_Encode]
      simp [importPath, importInput, hs, hu]
    · rw [importStream_calls, importValues_eq, importParams_Encode]
      simp [importPath, importInput, hs, hu]
  · rcases hsrc with h | h | h
    · exact absurd h hs
    · rw [hu] at h; cases h
    · rw [ho] at h; cases h
  · rw [hrun, h2]
    refine Prod.ext ?_ ?_
    · rw [importStream_result, importValues_eq, importParams_Set_fromSrc,
        importParams_Encode]
      simp [importPath, importInput, hs, hu]
    · rw [importStream_calls, importValues_eq, importParams_Set_fromSrc,
        importParams_Encode]
      simp [importPath, importInput, hs, hu]

/-- C6, as the code has it: in Full mode with the two positionals `S` and `R:T`, the
destination is split only for the name check, which is made on its repository part
before the request; the one stream call is a `POST` to `/images/create` whose query
holds the destination whole, escaped, as `repo=R:T`, after the `changes`, `fromSrc` and
`message`, and holds no `tag`. -/
theorem CmdImport_full_destination_unsplit (env : Env) (changes : List String)
    (message S R T : String)
    (hcheck : env.ValidateRepositoryName (env.ParseRepositoryTag (R ++ ":" ++ T)).1 = none)
    (hsrc : S = "-" ∨ env.IsURL S = true ∨ env.osOpen S = none) :
    (CmdImport env
        { flChanges := changes, message := message, flDiff := "", flMetadata := false,
          args := [S, R ++ ":" ++ T] }).2.filter (fun ev => ev.isValidate || ev.isStream)
      = [Event.validate (env.ParseRepositoryTag (R ++ ":" ++ T)).1,
         Event.stream "POST"
           ("/images/create?" ++ "&".intercalate
              (changes.map (fun c => "changes=" ++ QueryEscape c)
                ++ ["fromSrc="
                      ++ QueryEscape (if S ≠ "-" ∧ env.IsURL S = false then "-" else S),
                    "message=" ++ QueryEscape message,
                    "repo=" ++ QueryEscape (R ++ ":" ++ T)]))
           { rawTerminal := true,
             input := if S = "-" then Reader.cliIn
               else if env.IsURL S = true then Reader.nil else Reader.file S,
             out := Writer.cliOut }] := by
  have hne : R ++ ":" ++ T ≠ "" := by
    intro h
    have := congrArg String.length h
    have h1 : ":".length = 1 := rfl
    have h0 : "".length = 0 := rfl
    simp only [String.length_append, h1, h0] at this
    omega
  rw [CmdImport_run env
    { flChanges := changes, message := message, flDiff := "", flMetadata := false,
      args := [S, R ++ ":" ++ T] } (by simp) (Or.inr hcheck) hsrc]
  by_cases hf : S ≠ "-" ∧ env.IsURL S = false
  · simp [importWarning, checkEvents, importPath, importInput, importQuery, Arg, NArg, hne,
      hf, Event.isValidate, Event.isStream, List.filter_cons]
  · simp [importWarning, checkEvents, importPath, importInput, importQuery, Arg, NArg, hne,
      hf, Event.isValidate, Event.isStream, List.filter_cons]

/-- Witness of C6 as the code has it: `import - myrepo:latest`. -/
theorem CmdImport_full_destination_unsplit_witness :
    envOk.ValidateRepositoryName (envOk.ParseRepositoryTag ("myrepo" ++ ":" ++ "latest")).1 = none
      ∧ ("-" = "-" ∨ envOk.IsURL "-" = true ∨ envOk.osOpen "-" = none)
      ∧ (CmdImport envOk
          { flChanges := [], message := "", flDiff := "", flMetadata := false,
            args := ["-", "myrepo" ++ ":" ++ "latest"] }).2.filter
              (fun ev => ev.isValidate || ev.isStream)
        = [Event.validate "myrepo",
           Event.stream "POST" "/images/create?fromSrc=-&message=&repo=myrepo%3Alatest"
             { rawTerminal := true, input := Reader.cliIn, out := Writer.cliOut }] :=
  ⟨rfl, Or.inl rfl,
   (CmdImport_full_destination_unsplit envOk [] "" "-" "myrepo" "latest" rfl
      (Or.inl rfl)).trans (by decide)⟩

/-- C8, counterexample: `import --diff c1 -` posts to
`/containers/diff?container=c1&fromSrc=-&message=&repo=`; the query holds `fromSrc`,
`message` and `repo` next to `container`, and the request
`/containers/diff?container=c1` is not made. -/
theorem CmdImport_diff_query_has_more :
    (CmdImport envOk importDiffStdin).2
        = [Event.stream "POST" "/containers/diff?container=c1&fromSrc=-&message=&repo="
             { rawTerminal := true, input := Reader.cliIn, out := Writer.cliOut }]
      ∧ Event.stream "POST" ("/containers/diff?container=" ++ QueryEscape "c1")
          { rawTerminal := true, input := Reader.cliIn, out := Writer.cliOut }
        ∉ (CmdImport envOk importDiffStdin).2 := by
  decide

/-- C8, as the code has it: when the name check passes and the source resolves, in Diff
mode (a non-empty `--diff` value, no `--metadata`) the path of the one stream call is
`/containers/diff?` followed by the whole parameter set, escaped and joined with `&`:
the `changes` in the order given, `container`, `fromSrc`, `message`, `repo`, and `tag`
when there are three positionals; in Metadata mode the path is `/containers/metadata`
and nothing else. -/
theorem CmdImport_diff_metadata_paths (env : Env) (cmd : ImportCmd)
    (hcheck : Arg cmd.args 1 = "" ∨
      env.ValidateRepositoryName (env.ParseRepositoryTag (Arg cmd.args 1)).1 = none)
    (hsrc : Arg cmd.args 0 = "-" ∨ env.IsURL (Arg cmd.args 0) = true
      ∨ env.osOpen (Arg cmd.args 0) = none) :
    (cmd.flDiff ≠ "" ∧ cmd.flMetadata = false →
        (CmdImport env cmd).2.filter Event.isStream
          = [Event.stream "POST"
              ("/containers/diff?" ++ "&".intercalate
                (cmd.flChanges.map (fun c => "changes=" ++ QueryEscape c)
                  ++ ["container=" ++ QueryEscape cmd.flDiff,
                      "fromSrc=" ++ QueryEscape
                        (if Arg cmd.args 0 ≠ "-" ∧ env.IsURL (Arg cmd.args 0) = false then "-"
                          else Arg cmd.args 0),
                      "message=" ++ QueryEscape cmd.message,
                      "repo=" ++ QueryEscape (Arg cmd.args 1)]
                  ++ (if NArg cmd.args = 3 then ["tag=" ++ QueryEscape (Arg cmd.args 2)]
                       else [])))
              { rawTerminal := true, input := importInput env cmd, out := Writer.cliOut }])
      ∧ (cmd.flMetadata = true ∧ cmd.flDiff = "" →
        (CmdImport env cmd).2.filter Event.isStream
          = [Event.stream "POST" "/containers/metadata"
              { rawTerminal := true, input := importInput env cmd, out := Writer.cliOut }]) := by
  have hpre : (importWarning cmd ++ checkEvents env cmd).filter Event.isStream = [] :=
    List.filter_eq_nil_iff.mpr (fun ev hev => by simp [(prelude_not_stream env cmd ev hev).1])
  refine ⟨?_, ?_⟩
  · rintro ⟨hd, hm⟩
    rw [CmdImport_run env cmd (by simp [hm]) hcheck hsrc]
    simp only [List.filter_append, hpre]
    by_cases hf : Arg cmd.args 0 ≠ "-" ∧ env.IsURL (Arg cmd.args 0) = false <;>
      simp [importPath, importQuery, hd, hf, Event.isStream, List.filter_cons, Event.isOpen,
        Event.isClose]
  · rintro ⟨hm, hd⟩
    rw [CmdImport_run env cmd (by simp [hd]) hcheck hsrc]
    simp only [List.filter_append, hpre]
    by_cases hf : Arg cmd.args 0 ≠ "-" ∧ env.IsURL (Arg cmd.args 0) = false <;>
      simp [importPath, hd, hm, hf, Event.isStream, List.filter_cons]

/-- Witness of C8 as the code has it: `import --diff c1 -`. -/
theorem CmdImport_diff_metadata_paths_witness :
    (Arg importDiffStdin.args 1 = "" ∨
        envOk.ValidateRepositoryName
          (envOk.ParseRepositoryTag (Arg importDiffStdin.args 1)).1 = none)
      ∧ (Arg importDiffStdin.args 0 = "-" ∨ envOk.IsURL (Arg importDiffStdin.args 0) = true
        ∨ envOk.osOpen (Arg importDiffStdin.args 0) = none)
      ∧ (importDiffStdin.flDiff ≠ "" ∧ importDiffStdin.flMetadata = false)
      ∧ (CmdImport envOk importDiffStdin).2.filter Event.isStream
        = [Event.stream "POST" "/containers/diff?container=c1&fromSrc=-&message=&repo="
             { rawTerminal := true, input := Reader.cliIn, out := Writer.cliOut }] :=
  ⟨Or.inl rfl, Or.inl rfl, ⟨by decide, rfl⟩,
   ((CmdImport_diff_metadata_paths envOk importDiffStdin (Or.inl rfl) (Or.inl rfl)).1
      ⟨by decide, rfl⟩).trans (by decide)⟩

/-- A run of `CmdImport` in closed form: the mode error; or the error of the name
check after the warning; or the error of `os.Open`; or the stream call and its error. -/
theorem CmdImport_eq (env : Env) (cmd : ImportCmd) :
    CmdImport env cmd =
      if cmd.flMetadata = true ∧ cmd.flDiff ≠ "" then
        (some (Error.errorsNew importSequentialMsg), [])
      else
        match checkResult env cmd with
        | some e => (some (Error.external e), importWarning cmd ++ checkEvents env cmd)
        | none =>
          if Arg cmd.args 0 ≠ "-" ∧ env.IsURL (Arg cmd.args 0) = false then
            match env.osOpen (Arg cmd.args 0) with
            | some e =>
              (some (Error.external e),
                importWarning cmd ++ checkEvents env cmd ++ [Event.openFile (Arg cmd.args 0)])
            | none =>
              ((env.stream "POST" (importPath env cmd)
                  { rawTerminal := true, input := importInput env cmd,
                    out := Writer.cliOut }).map Error.external,
                importWarning cmd ++ checkEvents env cmd
                  ++ [Event.openFile (Arg cmd.args 0),
                      Event.stream "POST" (importPath env cmd)
                        { rawTerminal := true, input := importInput env cmd,
                          out := Writer.cliOut },
                      Event.close (Arg cmd.args 0)])
          else
            ((env.stream "POST" (importPath env cmd)
                { rawTerminal := true, input := importInput env cmd,
                  out := Writer.cliOut }).map Error.external,
              importWarning cmd ++ checkEvents env cmd
                ++ [Event.stream "POST" (importPath env cmd)
                      { rawTerminal := true, input := importInput env cmd,
                        out := Writer.cliOut }]) := by
  by_cases hmode : cmd.flMetadata = true ∧ cmd.flDiff ≠ ""
  · obtain ⟨hm, hd⟩ := hmode
    simp only [ne_eq] at hd
    simp [CmdImport, hm, hd]
  · rw [if_neg hmode]
    cases hres : checkResult env cmd with
    | some e =>
      rcases CmdImport_cases env cmd with ⟨hm, hd, -⟩ | ⟨-, e2, he, h⟩ | ⟨-, he, -⟩
      · exact absurd ⟨hm, hd⟩ hmode
      · rw [hres] at he
        cases he
        exact h
      · rw [hres] at he
        cases he
    | none =>
      have hcheck : Arg cmd.args 1 = "" ∨
          env.ValidateRepositoryName (env.ParseRepositoryTag (Arg cmd.args 1)).1 = none := by
        by_cases hr : Arg cmd.args 1 = ""
        · exact Or.inl hr
        · right
          simpa [checkResult, hr] using hres
      by_cases hf : Arg cmd.args 0 ≠ "-" ∧ env.IsURL (Arg cmd.args 0) = false
      · cases ho : env.osOpen (Arg cmd.args 0) with
        | some e =>
          rw [CmdImport_of_check env cmd hmode hcheck]
          simp [importTransfer, hf.1, hf.2, ho]
        | none =>
          rw [CmdImport_run env cmd hmode hcheck (Or.inr (Or.inr ho))]
          simp [hf]
      · have hsrc : Arg cmd.args 0 = "-" ∨ env.IsURL (Arg cmd.args 0) = true
            ∨ env.osOpen (Arg cmd.args 0) = none := by
          by_cases hs : Arg cmd.args 0 = "-"
          · exact Or.inl hs
          · right; left
            cases hu : env.IsURL (Arg cmd.args 0)
            · exact absurd ⟨hs, hu⟩ hf
            · rfl
        rw [CmdImport_run env cmd hmode hcheck hsrc]
        simp [hf]

/-- Every stream call of `CmdImport` is the `POST` of `importPath` with the body of
`importInput`. -/
theorem CmdImport_stream_mem (env : Env) (cmd : ImportCmd) (method path : String)
    (sopts : StreamOpts) (h : Event.stream method path sopts ∈ (CmdImport env cmd).2) :
    method = "POST" ∧ path = importPath env cmd
      ∧ sopts = { rawTerminal := true, input := importInput env cmd, out := Writer.cliOut } := by
  have hpre : Event.stream method path sopts ∉ importWarning cmd ++ checkEvents env cmd :=
    fun hin => by simpa [Event.isStream] using (prelude_not_stream env cmd _ hin).1
  rw [CmdImport_eq] at h
  split at h
  · simp at h
  · split at h
    · exact absurd h hpre
    · split at h
      · split at h
        · simp only [List.mem_append, List.mem_singleton] at h
          rcases h with h | h
          · exact absurd (List.mem_append.mpr h) hpre
          · cases h
        · simp only [List.mem_append, List.mem_cons, List.mem_singleton, Event.stream.injEq,
            List.not_mem_nil, or_false] at h
          rcases h with h | h | h | h
          · exact absurd (List.mem_append.mpr h) hpre
          · cases h
          · exact h
          · cases h
      · simp only [List.mem_append, List.mem_singleton, Event.stream.injEq] at h
        rcases h with h | h
        · exact absurd (List.mem_append.mpr h) hpre
        · exact h

/-- The endpoint of the path of `CmdImport` is that of the mode. -/
theorem endpoint_importPath (env : Env) (cmd : ImportCmd) :
    endpoint (importPath env cmd)
      = if cmd.flDiff ≠ "" then "/containers/diff"
        else if cmd.flMetadata = true then "/containers/metadata" else "/images/create" := by
  unfold importPath
  by_cases hd : cmd.flDiff = ""
  · by_cases hm : cmd.flMetadata = true
    · simp only [hd, hm, ne_eq, not_true_eq_false, if_false, if_true]
      decide
    · simp only [hd, hm, ne_eq, not_true_eq_false, if_false]
      rfl
  · simp only [hd, ne_eq, not_false_eq_true, if_true]
    rfl

/-- A destination `R:T` is not the empty string. -/
theorem tagged_ne_empty (R T : String) : R ++ ":" ++ T ≠ "" := by
  intro h
  have := congrArg String.length h
  have h1 : ":".length = 1 := rfl
  have h0 : "".length = 0 := rfl
  simp only [String.length_append, h1, h0] at this
  omega

/-- C7, counterexample: `import - myrepo latest` posts to
`/images/create?fromSrc=-&message=&repo=myrepo&tag=latest` and `import - myrepo:latest`
posts to `/images/create?fromSrc=-&message=&repo=myrepo%3Alatest`: the stream calls of
the two forms are not the same. -/
theorem CmdImport_legacy_request_differs :
    (CmdImport envOk importStdinLegacy).2.filter Event.isStream
        = [Event.stream "POST" "/images/create?fromSrc=-&message=&repo=myrepo&tag=latest"
             { rawTerminal := true, input := Reader.cliIn, out := Writer.cliOut }]
      ∧ (CmdImport envOk importStdinTagged).2.filter Event.isStream
        = [Event.stream "POST" "/images/create?fromSrc=-&message=&repo=myrepo%3Alatest"
             { rawTerminal := true, input := Reader.cliIn, out := Writer.cliOut }]
      ∧ (CmdImport envOk importStdinLegacy).2.filter Event.isStream
        ≠ (CmdImport envOk importStdinTagged).2.filter Event.isStream := by
  decide

/-- C7, as the code has it: for every source `S`, non-empty repository `R` and tag `T`
such that the splitter gives `R:T` the repository part of `R`, and for the same flags
and environment, the invocation with the three positionals `S R T` and the one with the
two positionals `S R:T` (1) make the same calls in the same order, the same name
checked, the same file opened and closed, a stream call with the same method, endpoint,
body and output, but for the query of the stream call and for the deprecation warning:
in every mode the first writes it to `cli.err` before any other call (only on a mode
conflict, where neither calls anything, it does not), and the second never writes a
warning; (2) return the same result whenever the transport answers their two stream
calls alike; (3) differ in the query when one is sent: the first sends `repo=R` and
`tag=T`, (4) the second sends `repo=R:T` and no `tag`; (5) in Metadata mode, where no
query is sent, they return the same result and make the same calls, the first after its
warning. -/
theorem CmdImport_legacy_form (env : Env) (cmd : ImportCmd) (S R T : String)
    (hR : R ≠ "")
    (hsplit : (env.ParseRepositoryTag (R ++ ":" ++ T)).1 = (env.ParseRepositoryTag R).1) :
    let legacy : ImportCmd := { cmd with args := [S, R, T] }
    let tagged : ImportCmd := { cmd with args := [S, R ++ ":" ++ T] }
    let fromSrc := if S ≠ "-" ∧ env.IsURL S = false then "-" else S
    let front := if cmd.flDiff ≠ "" then "/containers/diff?" else "/images/create?"
    let items := cmd.flChanges.map (fun c => "changes=" ++ QueryEscape c)
      ++ (if cmd.flDiff ≠ "" then ["container=" ++ QueryEscape cmd.flDiff] else [])
      ++ ["fromSrc=" ++ QueryEscape fromSrc, "message=" ++ QueryEscape cmd.message]
    ((CmdImport env legacy).2.map Event.shape
        = (if cmd.flMetadata = true ∧ cmd.flDiff ≠ "" then []
            else [Event.warn importDeprecatedMsg])
          ++ (CmdImport env tagged).2.map Event.shape
      ∧ ∀ text : String, Event.warn text ∉ (CmdImport env tagged).2)
      ∧ ((∀ (p3 p2 : String) (sopts : StreamOpts),
            Event.stream "POST" p3 sopts ∈ (CmdImport env legacy).2 →
            Event.stream "POST" p2 sopts ∈ (CmdImport env tagged).2 →
            env.stream "POST" p3 sopts = env.stream "POST" p2 sopts) →
          (CmdImport env legacy).1 = (CmdImport env tagged).1)
      ∧ (∀ (method path : String) (sopts : StreamOpts),
          Event.stream method path sopts ∈ (CmdImport env legacy).2 → cmd.flMetadata = false →
            path = front ++ "&".intercalate
              (items ++ ["repo=" ++ QueryEscape R, "tag=" ++ QueryEscape T]))
      ∧ (∀ (method path : String) (sopts : StreamOpts),
          Event.stream method path sopts ∈ (CmdImport env tagged).2 → cmd.flMetadata = false →
            path = front ++ "&".intercalate
              (items ++ ["repo=" ++ QueryEscape (R ++ ":" ++ T)]))
      ∧ (cmd.flMetadata = true → cmd.flDiff = "" →
          CmdImport env legacy
            = ((CmdImport env tagged).1,
               Event.warn importDeprecatedMsg :: (CmdImport env tagged).2)) := by
  intro legacy tagged fromSrc front items
  have hne := tagged_ne_empty R T
  have hcr : checkResult env tagged = checkResult env legacy := by
    simp [checkResult, legacy, tagged, Arg, hR, hne, hsplit]
  have hce : checkEvents env tagged = checkEvents env legacy := by
    simp [checkEvents, legacy, tagged, Arg, hR, hne, hsplit]
  have hwl : importWarning legacy = [Event.warn importDeprecatedMsg] := by
    simp [importWarning, legacy, NArg]
  have hwt : importWarning tagged = [] := by
    simp [importWarning, tagged, NArg]
  have hin : importInput env tagged = importInput env legacy := rfl
  have hep : endpoint (importPath env tagged) = endpoint (importPath env legacy) := by
    rw [endpoint_importPath, endpoint_importPath]
  have hA3 : Arg legacy.args 0 = S := rfl
  have hA2 : Arg tagged.args 0 = S := rfl
  have hm3 : legacy.flMetadata = cmd.flMetadata := rfl
  have hm2 : tagged.flMetadata = cmd.flMetadata := rfl
  have hd3 : legacy.flDiff = cmd.flDiff := rfl
  have hd2 : tagged.flDiff = cmd.flDiff := rfl
  have hcv : checkEvents env legacy = [Event.validate (env.ParseRepositoryTag R).1] := by
    simp [checkEvents, legacy, Arg, hR]
  have h3 := CmdImport_eq env legacy
  have h2 := CmdImport_eq env tagged
  rw [hcr, hce, hwt, hin, hA2, hm2, hd2, hcv] at h2
  rw [hwl, hA3, hm3, hd3, hcv] at h3
  refine ⟨?_, ?_, ?_, ?_, ?_⟩
  · by_cases hmode : cmd.flMetadata = true ∧ cmd.flDiff ≠ ""
    · rw [if_pos hmode] at h3 h2
      rw [h3, h2, if_pos hmode]
      simp
    · rw [if_neg hmode] at h3 h2
      rw [if_neg hmode]
      cases hres : checkResult env legacy with
      | some e =>
        rw [hres] at h3 h2
        simp only at h3 h2
        rw [h3, h2]
        simp [Event.shape]
      | none =>
        rw [hres] at h3 h2
        simp only at h3 h2
        by_cases hf : S ≠ "-" ∧ env.IsURL S = false
        · rw [if_pos hf] at h3 h2
          cases ho : env.osOpen S with
          | some e =>
            rw [ho] at h3 h2
            simp only at h3 h2
            rw [h3, h2]
            simp [Event.shape]
          | none =>
            rw [ho] at h3 h2
            simp only at h3 h2
            rw [h3, h2]
            simp [Event.shape, hep]
        · rw [if_neg hf] at h3 h2
          rw [h3, h2]
          simp [Event.shape, hep]
  · intro halike
    by_cases hmode : cmd.flMetadata = true ∧ cmd.flDiff ≠ ""
    · rw [if_pos hmode] at h3 h2
      rw [h3, h2]
    · rw [if_neg hmode] at h3 h2
      cases hres : checkResult env legacy with
      | some e =>
        rw [hres] at h3 h2
        simp only at h3 h2
        rw [h3, h2]
      | none =>
        rw [hres] at h3 h2
        simp only at h3 h2
        by_cases hf : S ≠ "-" ∧ env.IsURL S = false
        · rw [if_pos hf] at h3 h2
          cases ho : env.osOpen S with
          | some e =>
            rw [ho] at h3 h2
            simp only at h3 h2
            rw [h3, h2]
          | none =>
            rw [ho] at h3 h2
            simp only at h3 h2
            have := halike (importPath env legacy) (importPath env tagged)
              { rawTerminal := true, input := importInput env legacy, out := Writer.cliOut }
              (by rw [h3]; simp) (by rw [h2]; simp)
            rw [h3, h2, this]
        · rw [if_neg hf] at h3 h2
          have := halike (importPath env legacy) (importPath env tagged)
            { rawTerminal := true, input := importInput env legacy, out := Writer.cliOut }
            (by rw [h3]; simp) (by rw [h2]; simp)
          rw [h3, h2, this]
  · intro method path sopts hmem hmeta
    obtain ⟨-, hp, -⟩ := CmdImport_stream_mem env legacy method path sopts hmem
    rw [hp]
    by_cases hd : cmd.flDiff = "" <;>
      simp [importPath, importQuery, legacy, front, items, fromSrc, Arg, NArg, hd, hmeta]
  · intro method path sopts hmem hmeta
    obtain ⟨-, hp, -⟩ := CmdImport_stream_mem env tagged method path sopts hmem
    rw [hp]
    by_cases hd : cmd.flDiff = "" <;>
      simp [importPath, importQuery, tagged, front, items, fromSrc, Arg, NArg, hd, hmeta]
  · intro hmeta hdiff
    have hp : importPath env legacy = importPath env tagged := by
      simp [importPath, legacy, tagged, hmeta, hdiff]
    have hmode : ¬ (cmd.flMetadata = true ∧ cmd.flDiff ≠ "") := fun h => h.2 hdiff
    rw [if_neg hmode] at h3 h2
    rw [hp] at h3
    cases hres : checkResult env legacy with
    | some e =>
      rw [hres] at h3 h2
      simp only at h3 h2
      rw [h3, h2]
      simp
    | none =>
      rw [hres] at h3 h2
      simp only at h3 h2
      by_cases hf : S ≠ "-" ∧ env.IsURL S = false
      · rw [if_pos hf] at h3 h2
        cases ho : env.osOpen S with
        | some e =>
          rw [ho] at h3 h2
          simp only at h3 h2
          rw [h3, h2]
          simp
        | none =>
          rw [ho] at h3 h2
          simp only at h3 h2
          rw [h3, h2]
          simp
      · rw [if_neg hf] at h3 h2
        rw [h3, h2]
        simp

/-- Witness of C7 as the code has it: `import - myrepo latest` makes the calls of
`import - myrepo:latest` after its warning, up to the query. -/
theorem CmdImport_legacy_form_witness :
    "myrepo" ≠ ""
      ∧ (envOk.ParseRepositoryTag ("myrepo" ++ ":" ++ "latest")).1
        = (envOk.ParseRepositoryTag "myrepo").1
      ∧ (CmdImport envOk { importStdinTagged with args := ["-", "myrepo", "latest"] }).2.map
          Event.shape
        = (if importStdinTagged.flMetadata = true ∧ importStdinTagged.flDiff ≠ "" then []
            else [Event.warn importDeprecatedMsg])
          ++ (CmdImport envOk
            { importStdinTagged with args := ["-", "myrepo" ++ ":" ++ "latest"] }).2.map
          Event.shape :=
  ⟨by decide, by decide,
   (CmdImport_legacy_form envOk importStdinTagged "-" "myrepo" "latest" (by decide)
      (by decide)).1.1⟩

end Client
